import Mathlib

/-
  Verification of the `fame` schema-declaration and validation engine
  (src/fame/model.py and src/fame/matchers.py) against its specification.

  The engine is shallowly embedded: Python values become the inductive
  `Value`, dictionaries become ordered association lists, attribute access
  and derived-field memoization become explicit state passing on `Entity`,
  and a raised AttributeError becomes `Except.error PyErr.attributeError`.
  Functions returning a `Nat` component carry an instrumentation counter of
  derived-field initializer invocations; this counter is metadata used by
  the memoization theorems and is not part of the Python semantics.

  Python-2 specifics that the source relies on are modelled explicitly:
  `str` and `unicode` are distinct value forms that are both instances of
  `basestring` and compare equal to a string literal with the same content,
  and `bool` is an instance of `int`.
-/

set_option maxHeartbeats 1000000

namespace Fame

/-- A Python value, as manipulated by the engine.  `str` is a Python-2 byte
string, `unicode` a Python-2 unicode string. -/
inductive Value where
  | none : Value
  | bool : Bool → Value
  | int : Int → Value
  | str : String → Value
  | unicode : String → Value
  | list : List Value → Value
  | tuple : List Value → Value

mutual

/-- Python `repr` of a value, restricted to the value forms above.
Lists render their elements with `repr`; a one-element tuple renders with a
trailing comma, as in Python. -/
def pyRepr : Value → String
  | Value.none => "None"
  | Value.bool true => "True"
  | Value.bool false => "False"
  | Value.int n => toString n
  | Value.str s => "'" ++ s ++ "'"
  | Value.unicode s => "u'" ++ s ++ "'"
  | Value.list vs => "[" ++ pyReprJoin vs ++ "]"
  | Value.tuple [v] => "(" ++ pyRepr v ++ ",)"
  | Value.tuple vs => "(" ++ pyReprJoin vs ++ ")"

def pyReprJoin : List Value → String
  | [] => ""
  | [v] => pyRepr v
  | v :: rest => pyRepr v ++ ", " ++ pyReprJoin rest

end

/-- Python `str` of a value: identical to `repr` except that strings render
without quotes.  This is what `"...".format(...)` applies to its arguments. -/
def pyStr : Value → String
  | Value.str s => s
  | Value.unicode s => s
  | v => pyRepr v

/-- `v is None` in Python: identity with the `None` singleton. -/
def Value.isNone : Value → Bool
  | Value.none => true
  | _ => false

/-- Python `==` between a value and a byte-string literal, as used by
`value in self.options` and `subject not in [...]`.  In Python 2 both byte
strings and unicode strings compare equal to a byte-string literal with the
same content; values of other types compare unequal. -/
def pyEqStr : Value → String → Bool
  | Value.str t, s => t == s
  | Value.unicode t, s => t == s
  | _, _ => false

/-- The Python type objects the engine mentions.  `basestring` is the
common supertype of `str` and `unicode`. -/
inductive PyType where
  | str | unicode | basestring | int | bool | list | tuple
deriving DecidableEq, BEq

/-- `type.__name__`, as embedded in matcher descriptions. -/
def PyType.typeName : PyType → String
  | PyType.str => "str"
  | PyType.unicode => "unicode"
  | PyType.basestring => "basestring"
  | PyType.int => "int"
  | PyType.bool => "bool"
  | PyType.list => "list"
  | PyType.tuple => "tuple"

/-- Python-2 `isinstance`: `str` and `unicode` are instances of
`basestring`, and `bool` is an instance of `int`. -/
def isinstance (v : Value) (t : PyType) : Bool :=
  match v, t with
  | Value.str _, PyType.str => true
  | Value.str _, PyType.basestring => true
  | Value.unicode _, PyType.unicode => true
  | Value.unicode _, PyType.basestring => true
  | Value.bool _, PyType.bool => true
  | Value.bool _, PyType.int => true
  | Value.int _, PyType.int => true
  | Value.list _, PyType.list => true
  | Value.tuple _, PyType.tuple => true
  | _, _ => false

/-- Lookup in an ordered association list, modelling `key in dict` /
`dict[key]` / `dict.get(key)` for the string-keyed dicts of the engine. -/
def alist_get {α : Type} (k : String) : List (String × α) → Option α
  | [] => Option.none
  | (k', v) :: rest => if k' = k then Option.some v else alist_get k rest

/-- Insertion into an ordered association list, modelling `dict[key] = v`:
an existing entry is replaced in place, a new key is appended. -/
def alist_put {α : Type} (k : String) (v : α) : List (String × α) → List (String × α)
  | [] => [(k, v)]
  | (k', v') :: rest => if k' = k then (k, v) :: rest else (k', v') :: alist_put k v rest

/-- `dict.get(key)` on an entity data store: `None` when the key is absent. -/
def dictGet (d : List (String × Value)) (k : String) : Value :=
  (alist_get k d).getD Value.none

/-- Truthiness of a Python string: empty strings are falsy. -/
def strTruthy (s : String) : Bool := !(s == "")

/-- Truthiness of `error_message(...)`'s result: `None` and the empty
string are both falsy. -/
def truthyOpt : Option String → Bool
  | Option.none => false
  | Option.some s => strTruthy s

def hexDigitChar (n : Nat) : Char :=
  if n < 10 then Char.ofNat (48 + n) else Char.ofNat (87 + n)

def hexOfAux : Nat → Nat → List Char → List Char
  | 0, _, acc => acc
  | _ + 1, 0, acc => acc
  | fuel + 1, n, acc => hexOfAux fuel (n / 16) (hexDigitChar (n % 16) :: acc)

/-- Python `hex(n)` for a nonnegative `n`, as used for entity identities. -/
def hexOf (n : Nat) : String :=
  if n = 0 then "0x0" else "0x" ++ String.mk (hexOfAux n n [])

def lbraceChar : Char := Char.ofNat 123

def rbraceChar : Char := Char.ofNat 125

/-- A positional `str.format` slot, i.e. an opening and a closing brace. -/
def fmtSlot : String := String.mk [lbraceChar, rbraceChar]

def pyFormatChars : List Char → List Value → List Char
  | c1 :: c2 :: cs, a :: args =>
    if c1 == lbraceChar && c2 == rbraceChar then
      (pyStr a).data ++ pyFormatChars cs args
    else
      c1 :: pyFormatChars (c2 :: cs) (a :: args)
  | c :: cs, args => c :: pyFormatChars cs args
  | [], _ => []

/-- Python `template.format(*args)` restricted to automatic positional
slots, the only form the engine's message templates use.  Surplus
arguments are ignored, as in Python; templates are assumed to have no more
slots than arguments (Python would raise `IndexError` there, a case no
constraint of the modelled programs reaches). -/
def pyFormat (template : String) (args : List Value) : String :=
  String.mk (pyFormatChars template.data args)

/-- The matcher objects of src/fame/matchers.py, one constructor per
class.  A regular-expression matcher carries its pattern text (for its
description) together with the predicate `re.search(pattern, ·)` denotes. -/
inductive Matcher where
  | typeMatcher : PyType → Matcher
  | arrayMatcher : Matcher → Matcher
  | nullableMatcher : Matcher → Matcher
  | optionsMatcher : List String → Matcher
  | regularExpressionMatcher : String → (String → Bool) → Matcher
  | anythingMatcher : Matcher
  | reservedMatcher : Matcher

/-- A `type_declaration` argument: either a Python type object or an
already constructed matcher. -/
inductive TypeDecl where
  | prim : PyType → TypeDecl
  | matcher : Matcher → TypeDecl

/-- `as_matcher` from src/fame/matchers.py: the `str` type is replaced by
`basestring` before wrapping, bare types become `TypeMatcher`, and an
existing matcher passes through. -/
def as_matcher : TypeDecl → Matcher
  | TypeDecl.prim t =>
    Matcher.typeMatcher (if t == PyType.str then PyType.basestring else t)
  | TypeDecl.matcher m => m

/-- `ArrayMatcher.__init__`: the element declaration goes through
`as_matcher`. -/
def ArrayMatcher.make (td : TypeDecl) : Matcher :=
  Matcher.arrayMatcher (as_matcher td)

/-- `NullableMatcher.__init__`: the inner declaration goes through
`as_matcher`. -/
def NullableMatcher.make (td : TypeDecl) : Matcher :=
  Matcher.nullableMatcher (as_matcher td)

/-- `__call__` of each matcher class: the membership predicate. -/
def Matcher.call : Matcher → Value → Bool
  | Matcher.typeMatcher t, v => isinstance v t
  | Matcher.arrayMatcher m, v =>
    match v with
    | Value.list vs => vs.all (fun x => Matcher.call m x)
    | _ => false
  | Matcher.nullableMatcher m, v => v.isNone || Matcher.call m v
  | Matcher.optionsMatcher opts, v => opts.any (fun s => pyEqStr v s)
  | Matcher.regularExpressionMatcher _ search, v =>
    match v with
    | Value.str s => search s
    | Value.unicode s => search s
    | _ => false
  | Matcher.anythingMatcher, _ => true
  | Matcher.reservedMatcher, _ => false

/-- `__str__` of each matcher class: the description embedded in
validation messages. -/
def Matcher.str : Matcher → String
  | Matcher.typeMatcher t => t.typeName
  | Matcher.arrayMatcher m => "array(" ++ Matcher.str m ++ ")"
  | Matcher.nullableMatcher m => "nullable(" ++ Matcher.str m ++ ")"
  | Matcher.optionsMatcher opts => "options" ++ pyRepr (Value.tuple (opts.map Value.str))
  | Matcher.regularExpressionMatcher pat _ => "regexp(" ++ pat ++ ")"
  | Matcher.anythingMatcher => "anything"
  | Matcher.reservedMatcher => "reserved"

/-- Whether a matcher is an `OptionsMatcher`, i.e. has an `options`
attribute. -/
def Matcher.isOptionsMatcher : Matcher → Bool
  | Matcher.optionsMatcher _ => true
  | _ => false

/-- Errors the engine can raise on the modelled paths.  Only strict
resolution of an unknown name raises; it raises `AttributeError`. -/
inductive PyErr where
  | attributeError : PyErr

/-- An entity: its own data store plus its instance attributes.  `data` is
the `self.data` dict; `attrs` models the rest of the instance `__dict__`,
which the engine uses purely as a memoization target via `setattr`.  `eid`
stands for `id(entity)`, the object identity used in message prefixes.
(The `data` and `metamodel` attributes themselves, and class methods, live
outside the modelled field-name space.) -/
structure Entity where
  data : List (String × Value)
  attrs : List (String × Value)
  eid : Nat

/-- `Model.__init__(self, **data)`: an entity holds its own copy of the
initial data and starts with no memoized attributes. -/
def Model.new (eid : Nat) (data : List (String × Value)) : Entity :=
  { data := data, attrs := [], eid := eid }

/-- A declared field: `Field.__init__` stores the name, the matcher
obtained from `as_matcher(type_declaration)`, and the default (`None` when
not given).  Further keyword options are stored but never read by the
engine, so they are not modelled. -/
structure Field where
  name : String
  match_ : Matcher
  default : Value

/-- `Field(name, type_declaration, default=...)`. -/
def Field.make (name : String) (td : TypeDecl) (default : Value) : Field :=
  { name := name, match_ := as_matcher td, default := default }

/-- `Field.get_value`: read `entity.data.get(name)`; if the result is
`None` — whether the key is absent or stores `None` — return the default,
otherwise the stored value unchanged. -/
def Field.get_value (f : Field) (e : Entity) : Value :=
  let value := dictGet e.data f.name
  match value with
  | Value.none => f.default
  | v => v

/-- A derived field: a name (the decorated function's name) and its
initializer.  Initializers are embedded as pure functions of the entity. -/
structure DerivedField where
  name : String
  initializer : Entity → Value

/-- `DerivedField.get_value`: if the entity's data store has no entry for
the field's name, invoke the initializer and store the result there; then
return the stored entry.  The `Nat` component counts initializer
invocations performed by this call (instrumentation). -/
def DerivedField.get_value (df : DerivedField) (e : Entity) : Value × Entity × Nat :=
  match alist_get df.name e.data with
  | Option.some _ => (dictGet e.data df.name, e, 0)
  | Option.none =>
    let value := df.initializer e
    let e' := { e with data := alist_put df.name value e.data }
    (dictGet e'.data df.name, e', 1)

/-- `DerivedField.__get__`: compute `get_value`, then memoize the result as
an instance attribute under the field's name. -/
def DerivedField.get (df : DerivedField) (e : Entity) : Value × Entity × Nat :=
  let r := df.get_value e
  (r.1, { r.2.1 with attrs := alist_put df.name r.1 r.2.1.attrs }, r.2.2)

/-- A constraint: the message template given to the decorator and the
decorated predicate.  A predicate returning `None` means the constraint is
satisfied; predicates are embedded as pure functions of the entity. -/
structure Constraint where
  message : String
  function : Entity → Value

/-- `Constraint.error_message`: `None` results mean no violation; any
other result is coerced to an argument tuple (a non-tuple becomes a
one-element tuple) and formatted positionally into the template. -/
def Constraint.error_message (c : Constraint) (e : Entity) : Option String :=
  match c.function e with
  | Value.none => Option.none
  | values =>
    let args := match values with
      | Value.tuple vs => vs
      | v => [v]
    Option.some (pyFormat c.message args)

/-- A built metamodel: the class name, the field registry (an ordered
name-to-field dict), the derived-field registry, and the constraints in
declaration order. -/
structure Metamodel where
  name : String
  fields : List (String × Field)
  derived_fields : List (String × DerivedField)
  constraints : List Constraint

/-- The value of `entity.<n>` as read by the engine itself (used only for
`entity.name` in the message prefix): a memoized instance attribute wins,
then a derived-field descriptor, then `__getattr__`, which resolves a
declared field.  The memoization side effect of that read is dropped here;
it never changes any produced message, since within one traversal the
entity's data is not mutated. -/
def Metamodel.attribute_value (mm : Metamodel) (e : Entity) (n : String) : Value :=
  match alist_get n e.attrs with
  | Option.some v => v
  | Option.none =>
    match alist_get n mm.derived_fields with
    | Option.some df => (df.get_value e).1
    | Option.none =>
      match alist_get n mm.fields with
      | Option.some f => f.get_value e
      | Option.none => Value.none

/-- `Metamodel.error_messages_prefix` (the source method of that name):
`"<Name> '<name value>'"` when a field literally named `name` is declared,
else `"<Name> at <hex id>"`. -/
def Metamodel.error_messages_head (mm : Metamodel) (e : Entity) : String :=
  if (alist_get "name" mm.fields).isSome then
    mm.name ++ " '" ++ pyStr (mm.attribute_value e "name") ++ "'"
  else
    mm.name ++ " at " ++ hexOf e.eid

/-- The message yielded for a field whose matcher rejects its value:
`"{} expected field '{}' to be {}, got {}".format(prefix, name, matcher, value)`. -/
def Metamodel.field_violation_message (mm : Metamodel) (e : Entity) (f : Field) : String :=
  mm.error_messages_head e ++ " expected field '" ++ f.name ++ "' to be "
    ++ f.match_.str ++ ", got " ++ pyStr (f.get_value e)

/-- `Metamodel.error_messages`: for every declared field whose matcher
rejects `get_value`, yield a field-violation message; then for every
constraint, in declaration order, whose `error_message` is truthy, yield
`"{} {}".format(prefix, error_message)`.  The generator is embedded as the
full finite list of yielded items. -/
def Metamodel.error_messages (mm : Metamodel) (e : Entity) : List String :=
  ((mm.fields.map Prod.snd).filterMap fun field =>
    if field.match_.call (field.get_value e) then Option.none
    else Option.some (mm.field_violation_message e field))
  ++ (mm.constraints.filterMap fun constraint =>
    if truthyOpt (constraint.error_message e) then
      Option.some (mm.error_messages_head e ++ " " ++ (constraint.error_message e).getD "")
    else Option.none)

/-- `Metamodel.get_field_value`: a declared field's `get_value`, else a
derived field's `get_value`, else — under strict resolution —
`object.__getattribute__(entity, name)`, which raises `AttributeError`
whenever the entity has no such instance attribute (the only reachable
case, since strict resolution is invoked exactly when ordinary attribute
lookup has already failed), and otherwise falls through, like the
non-strict case, to `entity.data.get(name)`. -/
def Metamodel.get_field_value (mm : Metamodel) (e : Entity) (n : String) (strict : Bool) :
    Except PyErr (Value × Entity × Nat) :=
  match alist_get n mm.fields with
  | Option.some f => Except.ok (f.get_value e, e, 0)
  | Option.none =>
    match alist_get n mm.derived_fields with
    | Option.some df => Except.ok (df.get_value e)
    | Option.none =>
      if strict then
        match alist_get n e.attrs with
        | Option.none => Except.error PyErr.attributeError
        | Option.some _ => Except.ok (dictGet e.data n, e, 0)
      else Except.ok (dictGet e.data n, e, 0)

/-- Transcribed from the specification's words (§4.6): `resolve_field`,
the single field-resolution algorithm: (a) a declared field's `get_value`;
(b) else a declared derived field's `get_value`; (c) else, if strict, fail
with an unknown-field error; (d) else the raw entry of the entity's data
store, or a null value if absent. -/
def resolve_field (mm : Metamodel) (e : Entity) (n : String) (strict : Bool) :
    Except PyErr (Value × Entity × Nat) :=
  match alist_get n mm.fields with
  | Option.some f => Except.ok (f.get_value e, e, 0)
  | Option.none =>
    match alist_get n mm.derived_fields with
    | Option.some df => Except.ok (df.get_value e)
    | Option.none =>
      if strict then Except.error PyErr.attributeError
      else Except.ok (dictGet e.data n, e, 0)

/-- Strict, attribute-style access to an entity, modelling Python's
attribute lookup on a `Model` instance: a memoized instance attribute is
found first; otherwise a `DerivedField` class attribute acts as a
(non-data) descriptor via `__get__`; otherwise `Model.__getattr__` runs
`get_field_value(..., strict=True)` and memoizes the resolved value on the
instance. -/
def Model.getattr (mm : Metamodel) (e : Entity) (n : String) :
    Except PyErr (Value × Entity × Nat) :=
  match alist_get n e.attrs with
  | Option.some v => Except.ok (v, e, 0)
  | Option.none =>
    match alist_get n mm.derived_fields with
    | Option.some df => Except.ok (df.get e)
    | Option.none =>
      match mm.get_field_value e n true with
      | Except.error er => Except.error er
      | Except.ok (v, e', k) =>
        Except.ok (v, { e' with attrs := alist_put n v e'.attrs }, k)

/-- Lenient, index-style access: `Model.__getitem__` delegates to
`get_field_value(..., strict=False)`. -/
def Model.getitem (mm : Metamodel) (e : Entity) (n : String) :
    Except PyErr (Value × Entity × Nat) :=
  mm.get_field_value e n false

/-- A Python generator object over strings: calling the generator function
creates it; iterating it consumes it.  `Metamodel.error_messages` is a
generator function (it uses `yield`), so its result is such a single-pass
iterator. -/
structure PyGen where
  remaining : List String

/-- Exhausting a generator (`list(gen)`, or any full traversal): yields
the remaining items and leaves the generator empty. -/
def PyGen.toList (g : PyGen) : List String × PyGen :=
  (g.remaining, { remaining := [] })

/-- `Model.error_messages`: each call delegates to the metamodel and hands
back a fresh generator over the violation messages. -/
def Model.error_messages (mm : Metamodel) (e : Entity) : PyGen :=
  { remaining := Metamodel.error_messages mm e }

/-- `Model.is_valid`: `not any(self.error_messages())` — consumes a fresh
generator, checking the truthiness of each yielded message. -/
def Model.is_valid (mm : Metamodel) (e : Entity) : Bool :=
  !((Model.error_messages mm e).toList.1.any strTruthy)

/-- `Model.options_for`: `self.metamodel.fields[fieldname].match.options`.
An unknown field name raises `KeyError`; a field whose matcher is not an
`OptionsMatcher` has no `options` attribute and raises `AttributeError`.
Both failures are modelled as `Option.none`. -/
def Model.options_for (mm : Metamodel) (fieldname : String) : Option (List String) :=
  match alist_get fieldname mm.fields with
  | Option.none => Option.none
  | Option.some f =>
    match f.match_ with
    | Matcher.optionsMatcher opts => Option.some opts
    | _ => Option.none

/-- One `m.field(field_name, field_type, default=...)` call performed by a
schema-building routine. -/
structure FieldDecl where
  field_name : String
  field_type : TypeDecl
  field_default : Value

/-- The record class as the metamodel build sees it: its `__name__` and
the `DerivedField` members of its `__dict__`. -/
structure ModelClass where
  name : String
  derived_members : List (String × DerivedField)

/-- The `Metamodel` decorator object across its lifecycle: it keeps the
captured, not-yet-executed schema-building routine (embedded as the list
of `m.field` calls that routine performs) until the one-time build
discards it, plus the attributes the build fills in.  `state.name` and the
registries are placeholders until the build runs. -/
structure MetamodelObj where
  pending_initialization : Option (List FieldDecl)
  state : Metamodel

/-- `Metamodel.__init__` plus the `@constraint` registrations executed
at module-import time: a pending object holding the captured routine and
the declared constraints. -/
def MetamodelObj.init (decls : List FieldDecl) (cs : List Constraint) : MetamodelObj :=
  { pending_initialization := Option.some decls,
    state := { name := "", fields := [], derived_fields := [], constraints := cs } }

/-- `Metamodel.finish_initialization`: set the name from the class, start
from an empty field dict, run the captured routine (each of its `m.field`
calls inserts a `Field`), collect the class's `DerivedField` members, and
discard the routine. -/
def MetamodelObj.finish_initialization (self : MetamodelObj) (model : ModelClass) : MetamodelObj :=
  match self.pending_initialization with
  | Option.none => self
  | Option.some decls =>
    { pending_initialization := Option.none,
      state :=
        { name := model.name,
          fields := decls.foldl
            (fun fs d => alist_put d.field_name
              (Field.make d.field_name d.field_type d.field_default) fs) [],
          derived_fields := model.derived_members,
          constraints := self.state.constraints } }

/-- `Metamodel.__get__`: finish the initialization if it is still pending,
then return the metamodel (the memoizing `setattr` hands out this same
object).  The `Bool` reports whether this access ran the build. -/
def MetamodelObj.get (self : MetamodelObj) (cls : ModelClass) :
    Metamodel × MetamodelObj × Bool :=
  if self.pending_initialization.isSome then
    let s' := self.finish_initialization cls
    (s'.state, s', true)
  else (self.state, self, false)

/-- A sequence of accesses to the `metamodel` attribute (one per entity
construction-and-first-use, or more): returns every metamodel observed,
the final decorator state, and how many accesses ran the build. -/
def runAccesses (cls : ModelClass) (s : MetamodelObj) : Nat → List Metamodel × MetamodelObj × Nat
  | 0 => ([], s, 0)
  | n + 1 =>
    let r := MetamodelObj.get s cls
    let rest := runAccesses cls r.2.1 n
    (r.1 :: rest.1, rest.2.1, (if r.2.2 then 1 else 0) + rest.2.2)

/-- An operation performed on one entity: a strict (attribute-style) read,
a lenient (index-style) read, or an external replacement of the entity's
data store (`m.data = ...`, covering clearing and corruption). -/
inductive Op where
  | attrRead : String → Op
  | itemRead : String → Op
  | setData : List (String × Value) → Op

/-- Whether an operation is a read (does not externally mutate the data
store). -/
def Op.isRead : Op → Bool
  | Op.attrRead _ => true
  | Op.itemRead _ => true
  | Op.setData _ => false

/-- One operation on an entity; the `Nat` counts initializer invocations
of the derived field named `d` caused by this operation.  A raised
`AttributeError` propagates to the caller and leaves the entity unchanged. -/
def Model.step_count (mm : Metamodel) (d : String) (e : Entity) : Op → Entity × Nat
  | Op.attrRead n =>
    match Model.getattr mm e n with
    | Except.error _ => (e, 0)
    | Except.ok (_, e', k) => (e', if n = d then k else 0)
  | Op.itemRead n =>
    match Model.getitem mm e n with
    | Except.error _ => (e, 0)
    | Except.ok (_, e', k) => (e', if n = d then k else 0)
  | Op.setData dd => ({ e with data := dd }, 0)

/-- A sequence of operations on one entity; returns the final entity and
the total number of initializer invocations of the derived field named
`d`. -/
def Model.run_count (mm : Metamodel) (d : String) (e : Entity) : List Op → Entity × Nat
  | [] => (e, 0)
  | op :: ops =>
    let s := Model.step_count mm d e op
    let r := Model.run_count mm d s.1 ops
    (r.1, s.2 + r.2)
/-- The pattern of the `design` field's `regexp("^https?://")` matcher:
`re.search` with a start anchor accepts exactly the strings beginning with
`http://` or `https://`. -/
def httpSchemeSearch (s : String) : Bool :=
  s.startsWith "http://" || s.startsWith "https://"

/-- The allowed values of the `subject` field, in declared order. -/
def subjectOptions : List String :=
  ["user", "visitor", "email", "listing", "market"]

/-- The `m.field` calls performed by `Example.metamodel` in
src/tests/test__model.py, in order. -/
def exampleDecls : List FieldDecl :=
  [ { field_name := "name", field_type := TypeDecl.prim PyType.str,
      field_default := Value.none },
    { field_name := "subject",
      field_type := TypeDecl.matcher (Matcher.optionsMatcher subjectOptions),
      field_default := Value.none },
    { field_name := "treatments",
      field_type := TypeDecl.matcher (ArrayMatcher.make (TypeDecl.prim PyType.str)),
      field_default := Value.none },
    { field_name := "percent_exposed", field_type := TypeDecl.prim PyType.int,
      field_default := Value.int 100 },
    { field_name := "design",
      field_type := TypeDecl.matcher (NullableMatcher.make (TypeDecl.matcher
        (Matcher.regularExpressionMatcher "^https?://" httpSchemeSearch))),
      field_default := Value.none } ]

/-- The `is_miscellanous` derived field: `self.subject not in ['user',
'visitor']`.  The strict read of `subject` inside the initializer is
embedded as the declared field's `get_value` (the initializer runs on the
entity's initial snapshot, where no conflicting memoized attribute
exists). -/
def isMiscellanousDerived : DerivedField :=
  { name := "is_miscellanous",
    initializer := fun e =>
      Value.bool (!(["user", "visitor"].any (fun s =>
        pyEqStr ((Field.make "subject"
          (TypeDecl.matcher (Matcher.optionsMatcher subjectOptions)) Value.none).get_value e) s))) }

/-- The `callonce` derived field returns `True`; its raise-if-called-twice
sentinel instrumentation is replaced by the invocation counter of the
operation runner. -/
def callonceDerived : DerivedField :=
  { name := "callonce", initializer := fun _ => Value.bool true }

/-- The `Example` class as the build sees it. -/
def exampleClass : ModelClass :=
  { name := "Example",
    derived_members :=
      [("is_miscellanous", isMiscellanousDerived), ("callonce", callonceDerived)] }

/-- The `Example` constraint: return `percent_exposed` when it exceeds
100, `None` otherwise.  The strict read of `percent_exposed` is embedded
as the declared field's `get_value`; the Python-2 comparison of a non-int
with 100 never exceeds it for the value forms that reach this predicate. -/
def exampleConstraint : Constraint :=
  { message := "expected percent_exposed to not exceed 100, got " ++ fmtSlot,
    function := fun e =>
      match (Field.make "percent_exposed" (TypeDecl.prim PyType.int)
        (Value.int 100)).get_value e with
      | Value.int n => if 100 < n then Value.int n else Value.none
      | _ => Value.none }

/-- The decorator object for `Example` right after import: pending routine
captured, one constraint registered. -/
def exampleMetamodelObj : MetamodelObj :=
  MetamodelObj.init exampleDecls [exampleConstraint]

/-- The built `Example` metamodel, as produced by the first access. -/
def exampleMM : Metamodel :=
  (exampleMetamodelObj.finish_initialization exampleClass).state

/-- Entity used to witness claim C1's resolution algorithm. -/
def c1Entity : Entity :=
  Model.new 0 [("whatnot", Value.str "gibberish")]

/-- A minimal schema with one derived field, for the memoization claims. -/
def c3Derived : DerivedField :=
  { name := "d", initializer := fun _ => Value.bool true }

def c3MM : Metamodel :=
  { name := "C3", fields := [], derived_fields := [("d", c3Derived)], constraints := [] }

def c3Entity : Entity := Model.new 0 []

/-- An integer field with a default, for the default-substitution claim. -/
def c5Field : Field :=
  Field.make "percent_exposed" (TypeDecl.prim PyType.int) (Value.int 100)

def c5EntityAbsent : Entity := Model.new 0 []

def c5EntityNull : Entity := Model.new 0 [("percent_exposed", Value.none)]

def c5EntityStored : Entity := Model.new 0 [("percent_exposed", Value.int 7)]

/-- A schema with one required int field and no constraints; an empty
entity violates it, giving a nonempty message list. -/
def c6Field : Field := Field.make "x" (TypeDecl.prim PyType.int) Value.none

def c6MM : Metamodel :=
  { name := "Thing", fields := [("x", c6Field)], derived_fields := [], constraints := [] }

def c6Entity : Entity := Model.new 0 []

/-- Entity used to witness strict-read memoization of declared fields. -/
def c8Entity : Entity := Model.new 0 [("subject", Value.str "email")]

/-- A constraint whose predicate returns a non-null value but whose
message template is empty, so the formatted violation text is the empty
string. -/
def c9SilentConstraint : Constraint :=
  { message := "", function := fun _ => Value.bool false }

/-- The first `Broken` constraint of the tests: the predicate returns
`False`, a false-like but non-null value. -/
def c9BrokenConstraint : Constraint :=
  { message := "exepected to not return " ++ fmtSlot,
    function := fun _ => Value.bool false }

def c9Entity : Entity := Model.new 0 []
theorem alist_get_put_self {α : Type} (k : String) (v : α) (l : List (String × α)) :
    alist_get k (alist_put k v l) = Option.some v := by
  induction l with
  | nil => simp [alist_get, alist_put]
  | cons hd tl ih =>
    obtain ⟨k', v'⟩ := hd
    by_cases h : k' = k <;> simp [alist_get, alist_put, h, ih]

theorem alist_get_put_ne {α : Type} (k k' : String) (v : α) (l : List (String × α))
    (h : k ≠ k') : alist_get k' (alist_put k v l) = alist_get k' l := by
  induction l with
  | nil => simp [alist_get, alist_put, h]
  | cons hd tl ih =>
    obtain ⟨k0, v0⟩ := hd
    by_cases h0 : k0 = k
    · subst h0; simp [alist_get, alist_put, h]
    · simp [alist_get, alist_put, h0, ih]

theorem filterMap_reject {α β : Type} (p : α → Bool) (g : α → β) (l : List α) :
    (l.filterMap fun a => if p a then Option.none else Option.some (g a))
      = (l.filter fun a => !(p a)).map g := by
  induction l with
  | nil => rfl
  | cons a t ih => by_cases h : p a <;> simp [List.filterMap_cons, List.filter_cons, h, ih]

theorem filterMap_accept {α β : Type} (p : α → Bool) (g : α → β) (l : List α) :
    (l.filterMap fun a => if p a then Option.some (g a) else Option.none)
      = (l.filter p).map g := by
  induction l with
  | nil => rfl
  | cons a t ih => by_cases h : p a <;> simp [List.filterMap_cons, List.filter_cons, h, ih]
/-- Claim C1: field resolution follows exactly the spec's `resolve_field`
algorithm — declared field, else derived field, else fail under strict
resolution and fall back to the raw data store under lenient resolution;
for an undeclared, non-derived name, strict access fails with the
unknown-field error and lenient access never fails.  (Strict resolution is
invoked only when ordinary attribute lookup has already failed, which is
the `alist_get n e.attrs = none` hypothesis.) -/
theorem claim_C1 (mm : Metamodel) (e : Entity) (n : String) :
    (∀ strict : Bool, alist_get n e.attrs = Option.none →
      mm.get_field_value e n strict = resolve_field mm e n strict)
    ∧ (alist_get n mm.fields = Option.none →
        alist_get n mm.derived_fields = Option.none →
        alist_get n e.attrs = Option.none →
        mm.get_field_value e n true = Except.error PyErr.attributeError)
    ∧ (∃ v e' k, mm.get_field_value e n false = Except.ok (v, e', k)) := by
  refine ⟨?_, ?_, ?_⟩
  · intro strict ha
    cases hf : alist_get n mm.fields <;>
      cases hd : alist_get n mm.derived_fields <;>
        cases strict <;>
          simp [Metamodel.get_field_value, resolve_field, hf, hd, ha]
  · intro hf hd ha
    simp [Metamodel.get_field_value, hf, hd, ha]
  · cases hf : alist_get n mm.fields with
    | none =>
      cases hd : alist_get n mm.derived_fields with
      | none =>
        exact ⟨dictGet e.data n, e, 0, by simp [Metamodel.get_field_value, hf, hd]⟩
      | some df =>
        exact ⟨(df.get_value e).1, (df.get_value e).2.1, (df.get_value e).2.2,
          by simp [Metamodel.get_field_value, hf, hd]⟩
    | some f =>
      exact ⟨f.get_value e, e, 0, by simp [Metamodel.get_field_value, hf]⟩

theorem claim_C1_witness :
    Metamodel.get_field_value exampleMM c1Entity "covfefe" true
      = Except.error PyErr.attributeError
    ∧ Metamodel.get_field_value exampleMM c1Entity "name" true
      = resolve_field exampleMM c1Entity "name" true :=
  ⟨(claim_C1 exampleMM c1Entity "covfefe").2.1 rfl rfl rfl,
   (claim_C1 exampleMM c1Entity "name").1 true rfl⟩

/-- Claim C2: `error_messages` yields exactly one message per declared
field whose matcher rejects its default-substituted value and one per
constraint whose `error_message` is truthy — N + M messages in total, with
all field violations preceding all constraint violations and constraints
kept in declaration order, with no short-circuiting. -/
theorem claim_C2 (mm : Metamodel) (e : Entity) :
    Metamodel.error_messages mm e
      = ((mm.fields.map Prod.snd).filter fun f => !(f.match_.call (f.get_value e))).map
          (mm.field_violation_message e)
        ++ (mm.constraints.filter fun c => truthyOpt (c.error_message e)).map
          (fun c => mm.error_messages_head e ++ " " ++ (c.error_message e).getD "")
    ∧ (Metamodel.error_messages mm e).length
      = ((mm.fields.map Prod.snd).filter fun f => !(f.match_.call (f.get_value e))).length
        + (mm.constraints.filter fun c => truthyOpt (c.error_message e)).length := by
  have h : Metamodel.error_messages mm e
      = ((mm.fields.map Prod.snd).filter fun f => !(f.match_.call (f.get_value e))).map
          (mm.field_violation_message e)
        ++ (mm.constraints.filter fun c => truthyOpt (c.error_message e)).map
          (fun c => mm.error_messages_head e ++ " " ++ (c.error_message e).getD "") := by
    unfold Metamodel.error_messages
    rw [filterMap_reject (fun f => f.match_.call (f.get_value e))
          (mm.field_violation_message e),
        filterMap_accept (fun c : Constraint => truthyOpt (c.error_message e))
          (fun c : Constraint => mm.error_messages_head e ++ " " ++ (c.error_message e).getD "")]
  exact ⟨h, by rw [h]; simp⟩
theorem runAccesses_built (cls : ModelClass) (s : MetamodelObj)
    (h : s.pending_initialization = Option.none) :
    ∀ n, runAccesses cls s n = (List.replicate n s.state, s, 0) := by
  intro n
  induction n with
  | zero => rfl
  | succ m ih => simp [runAccesses, MetamodelObj.get, h, ih, List.replicate]

/-- Claim C4: the captured schema-building routine runs exactly once over
any number of accesses, after which the routine reference is discarded,
and every access observes the very same built metamodel (hence the same
fields, derived fields, constraints, and ordering). -/
theorem claim_C4 (cls : ModelClass) (decls : List FieldDecl) (cs : List Constraint)
    (n : Nat) (hn : 1 ≤ n) :
    (runAccesses cls (MetamodelObj.init decls cs) n).2.2 = 1
    ∧ (runAccesses cls (MetamodelObj.init decls cs) n).2.1
        = (MetamodelObj.init decls cs).finish_initialization cls
    ∧ ((MetamodelObj.init decls cs).finish_initialization cls).pending_initialization
        = Option.none
    ∧ ∀ mm ∈ (runAccesses cls (MetamodelObj.init decls cs) n).1,
        mm = ((MetamodelObj.init decls cs).finish_initialization cls).state := by
  obtain ⟨m, rfl⟩ : ∃ m, n = m + 1 := ⟨n - 1, by omega⟩
  have hget : MetamodelObj.get (MetamodelObj.init decls cs) cls
      = (((MetamodelObj.init decls cs).finish_initialization cls).state,
         (MetamodelObj.init decls cs).finish_initialization cls, true) := rfl
  have hpend : ((MetamodelObj.init decls cs).finish_initialization cls).pending_initialization
      = Option.none := rfl
  have hrun : runAccesses cls (MetamodelObj.init decls cs) (m + 1)
      = (((MetamodelObj.init decls cs).finish_initialization cls).state
          :: List.replicate m ((MetamodelObj.init decls cs).finish_initialization cls).state,
         (MetamodelObj.init decls cs).finish_initialization cls, 1) := by
    simp [runAccesses, hget,
      runAccesses_built cls ((MetamodelObj.init decls cs).finish_initialization cls) hpend m]
  refine ⟨by rw [hrun], by rw [hrun], hpend, ?_⟩
  intro mm hmm
  rw [hrun] at hmm
  rcases List.mem_cons.mp hmm with h | h
  · exact h
  · exact List.eq_of_mem_replicate h

theorem claim_C4_witness :
    (runAccesses exampleClass (MetamodelObj.init exampleDecls [exampleConstraint]) 3).2.2 = 1
    ∧ ∀ mm ∈ (runAccesses exampleClass
          (MetamodelObj.init exampleDecls [exampleConstraint]) 3).1,
        mm = ((MetamodelObj.init exampleDecls
          [exampleConstraint]).finish_initialization exampleClass).state :=
  ⟨(claim_C4 exampleClass exampleDecls [exampleConstraint] 3 (by decide)).1,
   (claim_C4 exampleClass exampleDecls [exampleConstraint] 3 (by decide)).2.2.2⟩

/-- Claim C5: `Field.get_value` substitutes the default uniformly when the
stored entry is missing or present-but-null, returns the stored value
unchanged otherwise, and validation applies the matcher to this
default-substituted value, so a null-stored field with a matching default
produces no violation. -/
theorem claim_C5 (f : Field) (e : Entity) (mname : String) :
    (alist_get f.name e.data = Option.none → f.get_value e = f.default)
    ∧ (alist_get f.name e.data = Option.some Value.none → f.get_value e = f.default)
    ∧ (∀ v, alist_get f.name e.data = Option.some v → v ≠ Value.none → f.get_value e = v)
    ∧ (Metamodel.error_messages
        { name := mname, fields := [(f.name, f)], derived_fields := [], constraints := [] } e
          = []
        ↔ f.match_.call (f.get_value e) = true) := by
  refine ⟨?_, ?_, ?_, ?_⟩
  · intro h; simp [Field.get_value, dictGet, h]
  · intro h; simp [Field.get_value, dictGet, h]
  · intro v h hv
    cases v <;> simp_all [Field.get_value, dictGet]
  · cases hc : f.match_.call (f.get_value e) <;>
      simp [Metamodel.error_messages, hc]

theorem claim_C5_witness :
    c5Field.get_value c5EntityAbsent = Value.int 100
    ∧ c5Field.get_value c5EntityNull = Value.int 100
    ∧ c5Field.get_value c5EntityStored = Value.int 7
    ∧ Metamodel.error_messages
        { name := "T", fields := [(c5Field.name, c5Field)], derived_fields := [],
          constraints := [] } c5EntityNull = [] :=
  ⟨(claim_C5 c5Field c5EntityAbsent "T").1 rfl,
   (claim_C5 c5Field c5EntityNull "T").2.1 rfl,
   (claim_C5 c5Field c5EntityStored "T").2.2.1 (Value.int 7) rfl
     (fun h => Value.noConfusion h),
   ((claim_C5 c5Field c5EntityNull "T").2.2.2).mpr rfl⟩

/-- Claim C6, counterexample: `error_messages` returns a Python generator,
a one-shot iterator — traversing the same returned object a second time
yields nothing, not the same messages, so the claim as stated is false. -/
theorem claim_C6_counterexample :
    ((Model.error_messages c6MM c6Entity).toList.2).toList.1
      ≠ (Model.error_messages c6MM c6Entity).toList.1 := by
  decide

/-- Claim C6, amended: each call to `error_messages` returns a fresh,
finite, one-shot generator: a single traversal yields the complete message
list, a second traversal of the same object yields nothing, and consumers
such as `is_valid` make a fresh call, observing the same messages. -/
theorem claim_C6_amended (mm : Metamodel) (e : Entity) :
    (Model.error_messages mm e).toList.1 = Metamodel.error_messages mm e
    ∧ ((Model.error_messages mm e).toList.2).toList.1 = []
    ∧ Model.is_valid mm e = !((Metamodel.error_messages mm e).any strTruthy) :=
  ⟨rfl, rfl, rfl⟩

/-- Claim C7: `options_for` returns the allowed values of an
`Options`-matched field in declared order — for the example schema,
`options_for("subject")` is `user, visitor, email, listing, market` — and
fails (no `options` attribute on the matcher) for any field whose matcher
is not an `Options` matcher. -/
theorem claim_C7 :
    Model.options_for exampleMM "subject"
      = Option.some ["user", "visitor", "email", "listing", "market"]
    ∧ (∀ (mm : Metamodel) (fieldname : String) (f : Field),
        alist_get fieldname mm.fields = Option.some f →
        f.match_.isOptionsMatcher = false →
        Model.options_for mm fieldname = Option.none) := by
  constructor
  · rfl
  · intro mm fn f hf hm
    unfold Model.options_for
    rw [hf]
    cases hmm : f.match_ <;> simp_all [Matcher.isOptionsMatcher]

theorem claim_C7_witness :
    Model.options_for exampleMM "name" = Option.none :=
  claim_C7.2 exampleMM "name" (Field.make "name" (TypeDecl.prim PyType.str) Value.none)
    rfl rfl

/-- Claim C9: a constraint contributes a violation only when its formatted
message is truthy — a predicate may return a non-null value and still be
silently omitted when the formatted message is empty, letting the entity
count as valid; any non-null result (including false-like values such as
`False`) whose formatted message is nonempty does count as a violation,
and a null result never does. -/
theorem claim_C9 (mname : String) (c : Constraint) (e : Entity) :
    ((c.function e).isNone = false → truthyOpt (c.error_message e) = false →
      Metamodel.error_messages
        { name := mname, fields := [], derived_fields := [], constraints := [c] } e = []
      ∧ Model.is_valid
          { name := mname, fields := [], derived_fields := [], constraints := [c] } e
            = true)
    ∧ ((c.function e).isNone = false → truthyOpt (c.error_message e) = true →
      Metamodel.error_messages
        { name := mname, fields := [], derived_fields := [], constraints := [c] } e ≠ [])
    ∧ ((c.function e).isNone = true →
      Metamodel.error_messages
        { name := mname, fields := [], derived_fields := [], constraints := [c] } e = []) := by
  refine ⟨?_, ?_, ?_⟩
  · intro _ ht
    constructor
    · simp [Metamodel.error_messages, ht]
    · simp [Model.is_valid, Model.error_messages, PyGen.toList,
        Metamodel.error_messages, ht]
  · intro _ ht
    simp [Metamodel.error_messages, ht]
  · intro hn
    have hfe : c.function e = Value.none := by
      cases hfe : c.function e <;> simp_all [Value.isNone]
    have hem : c.error_message e = Option.none := by
      simp [Constraint.error_message, hfe]
    simp [Metamodel.error_messages, hem, truthyOpt]

theorem claim_C9_witness :
    (Metamodel.error_messages
      { name := "Silent", fields := [], derived_fields := [],
        constraints := [c9SilentConstraint] } c9Entity = []
    ∧ Model.is_valid
        { name := "Silent", fields := [], derived_fields := [],
          constraints := [c9SilentConstraint] } c9Entity = true)
    ∧ Metamodel.error_messages
        { name := "Broken", fields := [], derived_fields := [],
          constraints := [c9BrokenConstraint] } c9Entity ≠ [] :=
  ⟨(claim_C9 "Silent" c9SilentConstraint c9Entity).1 rfl rfl,
   (claim_C9 "Broken" c9BrokenConstraint c9Entity).2.1 rfl rfl⟩

/-- Claim C10: a field declared with the primitive `str` type tag gets the
`basestring` supertype substituted before the type matcher is built, so
both byte-string and unicode-string values satisfy the field's matcher. -/
theorem claim_C10 (name : String) (default : Value) (s t : String) :
    as_matcher (TypeDecl.prim PyType.str) = Matcher.typeMatcher PyType.basestring
    ∧ (Field.make name (TypeDecl.prim PyType.str) default).match_.call (Value.str s) = true
    ∧ (Field.make name (TypeDecl.prim PyType.str) default).match_.call (Value.unicode t)
        = true :=
  ⟨rfl, rfl, rfl⟩
theorem get_field_value_shape (mm : Metamodel) (e : Entity) (n : String) (strict : Bool)
    (hwf : ∀ m df, alist_get m mm.derived_fields = Option.some df → df.name = m) :
    mm.get_field_value e n strict = Except.error PyErr.attributeError
    ∨ (∃ v, mm.get_field_value e n strict = Except.ok (v, e, 0))
    ∨ (∃ v, alist_get n e.data = Option.none
        ∧ mm.get_field_value e n strict
            = Except.ok (v, { e with data := alist_put n v e.data }, 1)) := by
  cases hf : alist_get n mm.fields with
  | some f =>
    right; left
    exact ⟨f.get_value e, by simp [Metamodel.get_field_value, hf]⟩
  | none =>
    cases hd : alist_get n mm.derived_fields with
    | some df =>
      have hname : df.name = n := hwf n df hd
      subst hname
      cases hdata : alist_get df.name e.data with
      | some w =>
        right; left
        exact ⟨dictGet e.data df.name,
          by simp [Metamodel.get_field_value, hf, hd, DerivedField.get_value, hdata]⟩
      | none =>
        right; right
        refine ⟨df.initializer e, rfl, ?_⟩
        simp [Metamodel.get_field_value, hf, hd, DerivedField.get_value, hdata,
          dictGet, alist_get_put_self]
    | none =>
      cases strict with
      | false =>
        right; left
        exact ⟨dictGet e.data n, by simp [Metamodel.get_field_value, hf, hd]⟩
      | true =>
        cases hattr : alist_get n e.attrs with
        | none =>
          left
          simp [Metamodel.get_field_value, hf, hd, hattr]
        | some w =>
          right; left
          exact ⟨dictGet e.data n, by simp [Metamodel.get_field_value, hf, hd, hattr]⟩

theorem getattr_shape (mm : Metamodel) (e : Entity) (n : String)
    (hwf : ∀ m df, alist_get m mm.derived_fields = Option.some df → df.name = m) :
    Model.getattr mm e n = Except.error PyErr.attributeError
    ∨ (∃ v e', Model.getattr mm e n = Except.ok (v, e', 0) ∧ e'.data = e.data)
    ∨ (∃ v e', Model.getattr mm e n = Except.ok (v, e', 1)
        ∧ alist_get n e.data = Option.none ∧ e'.data = alist_put n v e.data) := by
  cases hattr : alist_get n e.attrs with
  | some v =>
    right; left
    exact ⟨v, e, by simp [Model.getattr, hattr], rfl⟩
  | none =>
    cases hd : alist_get n mm.derived_fields with
    | some df =>
      have hname : df.name = n := hwf n df hd
      subst hname
      cases hdata : alist_get df.name e.data with
      | some w =>
        right; left
        refine ⟨dictGet e.data df.name,
          { e with attrs := alist_put df.name (dictGet e.data df.name) e.attrs }, ?_, rfl⟩
        simp [Model.getattr, hattr, hd, DerivedField.get, DerivedField.get_value, hdata]
      | none =>
        right; right
        refine ⟨df.initializer e,
          { e with data := alist_put df.name (df.initializer e) e.data,
                   attrs := alist_put df.name (df.initializer e) e.attrs }, ?_, rfl, rfl⟩
        simp [Model.getattr, hattr, hd, DerivedField.get, DerivedField.get_value, hdata,
          dictGet, alist_get_put_self]
    | none =>
      rcases get_field_value_shape mm e n true hwf with h | ⟨v, h⟩ | ⟨v, habs, h⟩
      · left
        simp [Model.getattr, hattr, hd, h]
      · right; left
        exact ⟨v, { e with attrs := alist_put n v e.attrs },
          by simp [Model.getattr, hattr, hd, h], rfl⟩
      · right; right
        exact ⟨v, { e with data := alist_put n v e.data, attrs := alist_put n v e.attrs },
          by simp [Model.getattr, hattr, hd, h], habs, rfl⟩

theorem run_count_cons (mm : Metamodel) (d : String) (e : Entity) (op : Op) (ops : List Op) :
    Model.run_count mm d e (op :: ops)
      = ((Model.run_count mm d (Model.step_count mm d e op).1 ops).1,
         (Model.step_count mm d e op).2
           + (Model.run_count mm d (Model.step_count mm d e op).1 ops).2) := rfl

theorem step_count_read (mm : Metamodel) (d : String) (e : Entity) (op : Op)
    (hwf : ∀ m df, alist_get m mm.derived_fields = Option.some df → df.name = m)
    (hop : op.isRead = true) :
    ((alist_get d e.data).isSome = true →
        (Model.step_count mm d e op).2 = 0
        ∧ (alist_get d (Model.step_count mm d e op).1.data).isSome = true)
    ∧ (Model.step_count mm d e op).2 ≤ 1
    ∧ ((Model.step_count mm d e op).2 = 1 →
        (alist_get d (Model.step_count mm d e op).1.data).isSome = true) := by
  cases op with
  | setData dd => simp [Op.isRead] at hop
  | attrRead n =>
    rcases getattr_shape mm e n hwf with h | ⟨v, e', h, hdat⟩ | ⟨v, e', h, habs, hdat⟩
    · simp [Model.step_count, h]
    · simp [Model.step_count, h, hdat]
    · by_cases hnd : n = d
      · subst hnd
        simp [Model.step_count, h, hdat, habs, alist_get_put_self]
      · simp [Model.step_count, h, hdat, hnd, alist_get_put_ne n d v e.data hnd]
  | itemRead n =>
    rcases get_field_value_shape mm e n false hwf with h | ⟨v, h⟩ | ⟨v, habs, h⟩
    · simp [Model.step_count, Model.getitem, h]
    · simp [Model.step_count, Model.getitem, h]
    · by_cases hnd : n = d
      · subst hnd
        simp [Model.step_count, Model.getitem, h, habs, alist_get_put_self]
      · simp [Model.step_count, Model.getitem, h, hnd, alist_get_put_ne n d v e.data hnd]

theorem run_count_read (mm : Metamodel) (d : String)
    (hwf : ∀ m df, alist_get m mm.derived_fields = Option.some df → df.name = m) :
    ∀ (ops : List Op) (e : Entity), (∀ op ∈ ops, op.isRead = true) →
    ((alist_get d e.data).isSome = true →
        (Model.run_count mm d e ops).2 = 0
        ∧ (alist_get d (Model.run_count mm d e ops).1.data).isSome = true)
    ∧ (Model.run_count mm d e ops).2 ≤ 1
    ∧ ((Model.run_count mm d e ops).2 = 1 →
        (alist_get d (Model.run_count mm d e ops).1.data).isSome = true) := by
  intro ops
  induction ops with
  | nil =>
    intro e _
    exact ⟨fun hc => ⟨rfl, hc⟩, by simp [Model.run_count], by simp [Model.run_count]⟩
  | cons op ops ih =>
    intro e hops
    have hop : op.isRead = true := hops op (List.mem_cons_self _ _)
    have hrest : ∀ o ∈ ops, o.isRead = true := fun o ho => hops o (List.mem_cons_of_mem _ ho)
    obtain ⟨hs1, hs2, hs3⟩ := step_count_read mm d e op hwf hop
    obtain ⟨hi1, hi2, hi3⟩ := ih (Model.step_count mm d e op).1 hrest
    rw [run_count_cons]
    rcases Nat.le_one_iff_eq_zero_or_eq_one.mp hs2 with hz | ho
    · refine ⟨?_, ?_, ?_⟩
      · intro hc
        obtain ⟨-, hcap⟩ := hs1 hc
        obtain ⟨hr0, hrc⟩ := hi1 hcap
        exact ⟨by omega, hrc⟩
      · simp only [hz, Nat.zero_add]
        exact hi2
      · intro ht
        simp only [hz, Nat.zero_add] at ht
        exact hi3 ht
    · have hcap : (alist_get d (Model.step_count mm d e op).1.data).isSome = true :=
        hs3 ho
      obtain ⟨hr0, hrc⟩ := hi1 hcap
      refine ⟨?_, ?_, ?_⟩
      · intro hc
        obtain ⟨hz, -⟩ := hs1 hc
        omega
      · omega
      · intro _
        exact hrc

/-- Claim C3, counterexample: a derived field's cache lives in the
entity's data store, so clearing the data store between two lenient reads
makes the initializer run twice — the claim's "at most once ... even if
the data store is subsequently cleared" is false. -/
theorem claim_C3_counterexample :
    (Model.run_count c3MM "d" c3Entity
      [Op.itemRead "d", Op.setData [], Op.itemRead "d"]).2 = 2 := rfl

/-- Claim C3, amended: along any sequence of strict or lenient reads with
no external mutation of the data store, a derived field's initializer runs
at most once per entity, and when it has run the computed value is cached
in the entity's data store under the derived field's name.  (The
well-formedness hypothesis states that the derived-field registry keys
each spec under its own name, as `finish_initialization` builds it.) -/
theorem claim_C3_amended (mm : Metamodel) (d : String) (e : Entity) (ops : List Op)
    (hwf : ∀ m df, alist_get m mm.derived_fields = Option.some df → df.name = m)
    (hops : ∀ op ∈ ops, op.isRead = true) :
    (Model.run_count mm d e ops).2 ≤ 1
    ∧ ((Model.run_count mm d e ops).2 = 1 →
        (alist_get d (Model.run_count mm d e ops).1.data).isSome = true) := by
  obtain ⟨-, h2, h3⟩ := run_count_read mm d hwf ops e hops
  exact ⟨h2, h3⟩

theorem claim_C3_witness :
    (Model.run_count c3MM "d" c3Entity
      [Op.itemRead "d", Op.attrRead "d", Op.itemRead "d"]).2 ≤ 1 :=
  (claim_C3_amended c3MM "d" c3Entity [Op.itemRead "d", Op.attrRead "d", Op.itemRead "d"]
    (by
      intro n df h
      by_cases hn : ("d" : String) = n
      · subst hn
        simp [c3MM, alist_get] at h
        rw [← h]
        rfl
      · simp [c3MM, alist_get, hn] at h)
    (by intro op h; fin_cases h <;> rfl)).1

/-- Claim C8: `Model.__getattr__` memoizes — after the first strict read
of a declared, non-derived field, the resolved value is cached as an
instance attribute, and every subsequent strict read returns that first
value unchanged even if the entity's data store is replaced or cleared in
between. -/
theorem claim_C8 (mm : Metamodel) (e : Entity) (n : String) (f : Field)
    (hf : alist_get n mm.fields = Option.some f)
    (hd : alist_get n mm.derived_fields = Option.none)
    (ha : alist_get n e.attrs = Option.none) :
    Model.getattr mm e n
      = Except.ok (f.get_value e,
          { e with attrs := alist_put n (f.get_value e) e.attrs }, 0)
    ∧ ∀ dd, Model.getattr mm
          { e with data := dd, attrs := alist_put n (f.get_value e) e.attrs } n
        = Except.ok (f.get_value e,
            { e with data := dd, attrs := alist_put n (f.get_value e) e.attrs }, 0) := by
  constructor
  · simp [Model.getattr, Metamodel.get_field_value, ha, hd, hf]
  · intro dd
    simp [Model.getattr, alist_get_put_self]

theorem claim_C8_witness :
    Model.getattr exampleMM c8Entity "subject"
      = Except.ok (Value.str "email",
          { c8Entity with attrs := alist_put "subject" (Value.str "email") c8Entity.attrs },
          0)
    ∧ Model.getattr exampleMM
        { c8Entity with data := [],
                        attrs := alist_put "subject" (Value.str "email") c8Entity.attrs }
          "subject"
      = Except.ok (Value.str "email",
          { c8Entity with data := [],
                          attrs := alist_put "subject" (Value.str "email") c8Entity.attrs },
          0) :=
  ⟨(claim_C8 exampleMM c8Entity "subject"
      (Field.make "subject" (TypeDecl.matcher (Matcher.optionsMatcher subjectOptions))
        Value.none) rfl rfl rfl).1,
   (claim_C8 exampleMM c8Entity "subject"
      (Field.make "subject" (TypeDecl.matcher (Matcher.optionsMatcher subjectOptions))
        Value.none) rfl rfl rfl).2 []⟩

end Fame
